import Mathlib

/-!
Verification of the clip-sharing backend (ClipStream API).

The development shallowly embeds the repository's source:
  - src/services/youtubeService.js : timeToSeconds, extractVideoId, extractVideoInfo
  - src/routes/clips.js            : feed listing, single fetch, like toggle,
                                     comment creation, cascade delete
  - the mongoose schemas (Clip, Comment, Like) as Lean structures; the three
    Mongo collections become lists of records, and the query/update operations
    used by the routes (find, findOne, findById, countDocuments, deleteMany,
    findByIdAndDelete, save) become the corresponding list operations.

Modelling conventions:
  - JavaScript numbers produced by Number(...) on time-code segments are
    modelled as `Option Int`, with `none` standing for NaN.  The model of
    Number covers the integer fragment (empty string, optional leading minus,
    decimal digits), which is the fragment the routes exercise.
  - Mongo object ids and createdAt timestamps are generation-time metadata;
    record identity in the model is field content.  Deletion by object id of
    a record found by findOne is modelled as erasing the first matching
    record of the list.
  - External collaborators (the youtube-dl metadata provider, the identity
    verifier of the auth middleware) enter as explicit parameters.
-/

/-! ## Decimal digits and the JS Number fragment -/

/-- Fuel-driven helper for the decimal digits of a natural number; the fuel
only serves structural recursion and is irrelevant once it exceeds the
number. -/
def natDigitsAux (fuel n : Nat) : List Char :=
  match fuel with
  | 0 => []
  | fuel + 1 =>
    if n < 10 then [Char.ofNat (48 + n)]
    else natDigitsAux fuel (n / 10) ++ [Char.ofNat (48 + n % 10)]

/-- Decimal digit characters of a natural number, most significant first.
JavaScript stringifies the nonnegative integers this way inside template
literals, so this models the implicit toString of youtubeService.js. -/
def natDigits (n : Nat) : List Char := natDigitsAux (n + 1) n

/-- Value of a digit string, folding left as JS Number does on digit runs. -/
def valDigits (l : List Char) : Nat :=
  l.foldl (fun a c => a * 10 + (c.toNat - 48)) 0

/-- Model of JavaScript Number() on the integer fragment: the empty string is
0, an optional leading minus followed by digits is the signed value, anything
else is NaN (`none`). -/
def jsNum (l : List Char) : Option Int :=
  if l = [] then some 0
  else if l.head? = some '-' ∧ l.tail ≠ [] ∧ l.tail.all (fun c => c.isDigit) then
    some (-(valDigits l.tail : Int))
  else if l.all (fun c => c.isDigit) then some ((valDigits l : Int))
  else none

/-- String.split on the colon character, as used by timeToSeconds. -/
def splitOnColon : List Char → List (List Char)
  | [] => [[]]
  | c :: rest =>
    if c = ':' then [] :: splitOnColon rest
    else
      match splitOnColon rest with
      | [] => [[c]]
      | h :: t => (c :: h) :: t

/-- Embeds timeToSeconds of src/services/youtubeService.js.  Empty input or
the literal 0:00 short-circuit to 0; a two-part split is minutes:seconds, a
three-part split hours:minutes:seconds; any other arity yields 0.  A NaN
segment propagates (in JS, arithmetic on NaN is NaN). -/
def timeToSeconds (timeStr : String) : Option Int :=
  if timeStr = "" ∨ timeStr = "0:00" then some 0
  else
    match (splitOnColon timeStr.data).map jsNum with
    | [a, b] =>
      match a, b with
      | some x, some y => some (x * 60 + y)
      | _, _ => none
    | [a, b, c] =>
      match a, b, c with
      | some x, some y, some z => some (x * 3600 + y * 60 + z)
      | _, _, _ => none
    | _ => some 0

/-- padStart(2, the zero character) of the JS source. -/
def pad2 (l : List Char) : List Char :=
  List.replicate (2 - l.length) '0' ++ l

/-- Embeds the duration formatting of extractVideoInfo (youtubeService.js
lines 52-64): h:mm:ss when the hour component is positive, else m:ss, with
minutes (in the three-part form) and seconds zero-padded to width 2. -/
def formatDuration (totalSeconds : Nat) : String :=
  let hours := totalSeconds / 3600
  let minutes := (totalSeconds % 3600) / 60
  let seconds := totalSeconds % 60
  if hours > 0 then
    ⟨natDigits hours ++ ':' :: pad2 (natDigits minutes) ++ ':' :: pad2 (natDigits seconds)⟩
  else
    ⟨natDigits minutes ++ ':' :: pad2 (natDigits seconds)⟩

/-- Embeds the clip-span formatting of extractVideoInfo (youtubeService.js
lines 66-73): always the m:ss shape, minutes unbounded. -/
def mssFormat (n : Nat) : String :=
  ⟨natDigits (n / 60) ++ ':' :: pad2 (natDigits (n % 60))⟩

/-! ## Video reference extraction

extractVideoId of youtubeService.js matches the URL against the regular
expression (caret)(dot-star)((youtu.be/)|(v/)|(/u/w/)|(embed/)|(watch?))
(opt ?)(opt v)(opt =)(capture of non-hash-amp-question chars)(dot-star) and
accepts the capture only at length exactly 11.  The model below implements
the backtracking behaviour of that pattern: the greedy leading dot-star
makes the engine use the LAST position at which one of the alternatives
matches (the continuation after the alternative never fails, every later
piece being optional or a star), then the three optional literals are
consumed greedily and the capture extends maximally over characters other
than hash, ampersand and question mark.  Newlines, which the dot would not
cross, do not occur in the inputs considered here. -/

/-- JS regex word character, for the /u/ alternative. -/
def isWordChar (c : Char) : Bool := c.isAlphanum || c = '_'

/-- Helper for the /u/(word char)/ alternative: the two characters after
/u/ must be a word character followed by a slash. -/
def uPathTail (l : List Char) : Bool :=
  match l with
  | c :: d :: _ => isWordChar c && d = '/'
  | _ => false

/-- Length consumed by the first alternative of the pattern matching at the
head of the list, if any.  The youtu.be alternative's dot is a wildcard, so
only positions 0-4 and 6-8 of it are pinned.  The five alternatives begin
with pairwise distinct literal characters, so at most one matches. -/
def altAt (l : List Char) : Option Nat :=
  if l.take 5 = ['y', 'o', 'u', 't', 'u'] ∧ (l.drop 6).take 3 = ['b', 'e', '/'] then some 9
  else if l.take 2 = ['v', '/'] then some 2
  else if l.take 3 = ['/', 'u', '/'] ∧ uPathTail (l.drop 3) then some 5
  else if l.take 6 = ['e', 'm', 'b', 'e', 'd', '/'] then some 6
  else if l.take 6 = ['w', 'a', 't', 'c', 'h', '?'] then some 6
  else none

/-- Rightmost position (and consumed length) at which an alternative
matches; the greedy leading dot-star of the pattern selects this one. -/
def lastAltPos : List Char → Option (Nat × Nat)
  | [] => none
  | c :: rest =>
    match lastAltPos rest with
    | some (i, k) => some (i + 1, k)
    | none => (altAt (c :: rest)).map (fun k => (0, k))

/-- Greedy consumption of the optional question mark, v and equals sign
following the matched alternative. -/
def afterOpt (l : List Char) : List Char :=
  let l1 := if l.head? = some '?' then l.tail else l
  let l2 := if l1.head? = some 'v' then l1.tail else l1
  if l2.head? = some '=' then l2.tail else l2

/-- Character-list core of extractVideoId: match the pattern, take capture
group 7, and accept it only when it is exactly 11 characters long. -/
def extractVideoIdL (l : List Char) : Option (List Char) :=
  match lastAltPos l with
  | none => none
  | some (i, k) =>
    let cap := (afterOpt (l.drop (i + k))).takeWhile
      (fun c => !(c == '#' || c == '&' || c == '?'))
    if cap.length = 11 then some cap else none

/-- Embeds extractVideoId of src/services/youtubeService.js. -/
def extractVideoId (url : String) : Option String :=
  (extractVideoIdL url.data).map (fun l => (⟨l⟩ : String))

/-- Character admissible in a platform video identifier (alphanumeric,
hyphen or underscore). -/
def ytIdChar (c : Char) : Bool := c.isAlphanum || c = '-' || c = '_'

/-! ## Video metadata extraction -/

/-- Metadata document returned by the external provider (youtube-dl called
with dumpSingleJson).  duration is the reported total seconds when the
field is present; thumbnail is the reported thumbnail URL when present. -/
structure ProviderInfo where
  title : String
  duration : Option Nat
  thumbnail : Option String
deriving DecidableEq, Repr

/-- The record extractVideoInfo returns (youtubeService.js lines 75-82).
JS numbers appear as Option Int with none standing for NaN;
endTimeSeconds is additionally wrapped because the source stores null when
no end time was supplied. -/
structure ClipMedia where
  videoId : String
  title : String
  thumbnailUrl : String
  duration : String
  startTimeSeconds : Option Int
  endTimeSeconds : Option (Option Int)
deriving DecidableEq, Repr

/-- The full-length duration string of extractVideoInfo (youtubeService.js
lines 52-64): the provider total formatted, or empty when the total is
absent or zero (the JS truthiness test on videoInfo.duration). -/
def fullDurationString (info : ProviderInfo) : String :=
  match info.duration with
  | some d => if d ≠ 0 then formatDuration d else ""
  | none => ""

/-- The clip-span duration string of extractVideoInfo (youtubeService.js
lines 66-73): computed only when the parsed end time is non-null, non-NaN,
nonzero (the JS truthiness test) and strictly greater than the parsed
start; empty otherwise. -/
def clipSpanString (endTS : Option (Option Int)) (startTS : Option Int) : String :=
  match endTS, startTS with
  | some (some e), some s =>
    if e ≠ 0 ∧ s < e then mssFormat (e - s).toNat else ""
  | _, _ => ""

/-- Embeds extractVideoInfo of src/services/youtubeService.js on the
success path of the provider call.  Fails (throws, modelled as none) only
when extractVideoId rejects the URL.  Note the JS truthiness tests: the
provider thumbnail is kept only when it is a nonempty string, and the clip
duration wins over the full-length one only when nonempty. -/
def extractVideoInfo (youtubeUrl : String) (startTime : String)
    (endTime : String) (info : ProviderInfo) : Option ClipMedia :=
  match extractVideoId youtubeUrl with
  | none => none
  | some vid =>
    let startTimeSeconds := timeToSeconds startTime
    let endTimeSeconds := if endTime ≠ "" then some (timeToSeconds endTime) else none
    let duration := fullDurationString info
    let clipDuration := clipSpanString endTimeSeconds startTimeSeconds
    some { videoId := vid
           title := info.title
           thumbnailUrl := match info.thumbnail with
             | some t => if t ≠ "" then t
                 else "https://img.youtube.com/vi/" ++ vid ++ "/hqdefault.jpg"
             | none => "https://img.youtube.com/vi/" ++ vid ++ "/hqdefault.jpg"
           duration := if clipDuration ≠ "" then clipDuration else duration
           startTimeSeconds := startTimeSeconds
           endTimeSeconds := endTimeSeconds }

/-- The trim-window property claimed as an invariant of ClipMedia: whenever
both trim fields carry parsed values, the end exceeds the start. -/
def trimOk (r : ClipMedia) : Bool :=
  match r.startTimeSeconds, r.endTimeSeconds with
  | some s, some (some e) => s < e
  | _, _ => true

/-- Core of the spec-side duration selection on parsed values: the
trim-span length in m:ss form when the parsed end time is nonzero and
strictly greater than the parsed start time, else the full source
duration. -/
def specDurationCore (endTS : Option (Option Int)) (startTS : Option Int)
    (info : ProviderInfo) : String :=
  match endTS, startTS with
  | some (some e), some s =>
    if e ≠ 0 ∧ s < e then mssFormat (e - s).toNat else fullDurationString info
  | _, _ => fullDurationString info

/-- The duration a ClipMedia should carry, written after the spec's
(amended) wording. -/
def specDurationString (startTime endTime : String) (info : ProviderInfo) : String :=
  specDurationCore (if endTime ≠ "" then some (timeToSeconds endTime) else none)
    (timeToSeconds startTime) info

/-! ## Data model of the three stores

Mirrors the mongoose schemas: Clip (src/unnamed/part_000), Comment
(src/models/Comment.js) and Like (the schema exported next to
src/server.js).  Mongo object ids are modelled as Nat; generation-time
metadata (object id of a Like, createdAt timestamps of Comment and Like)
is abstracted away, record identity being field content.  Clip keeps its
createdAt because the feed sorts on it. -/

/-- Discriminator of a Like's target, the type field of LikeSchema. -/
inductive LikeType where
  | clip
  | comment
deriving DecidableEq, Repr

/-- A document of the Clip collection. -/
structure ClipDoc where
  id : Nat
  user : Nat
  title : String
  description : String
  youtubeUrl : String
  youtubeVideoId : String
  thumbnailUrl : String
  duration : String
  startTimeSeconds : Option Int
  endTimeSeconds : Option (Option Int)
  createdAt : Nat
deriving DecidableEq, Repr

/-- A document of the Comment collection. -/
structure CommentDoc where
  user : Nat
  clip : Nat
  content : String
deriving DecidableEq, Repr

/-- A document of the Like collection: actor, optional clip target,
optional comment target, target kind. -/
structure LikeDoc where
  user : Nat
  clip : Option Nat
  comment : Option Nat
  type : LikeType
deriving DecidableEq, Repr

/-- The three Mongo collections the clip routes read and write. -/
structure AppState where
  clips : List ClipDoc
  comments : List CommentDoc
  likes : List LikeDoc
deriving DecidableEq, Repr

/-- The filter of Like.findOne({user, clip, type: clip-kind}) used by the
feed enrichment and the like toggle. -/
def likeMatches (u cid : Nat) (l : LikeDoc) : Bool :=
  l.user == u && l.clip == some cid && l.type == LikeType.clip

/-- The filter of Like.countDocuments({clip, type: clip-kind}). -/
def clipLike (cid : Nat) (l : LikeDoc) : Bool :=
  l.clip == some cid && l.type == LikeType.clip

/-- Membership filter for the uniqueness triple (actor, target, kind) of
LikeSchema's unique indexes. -/
def matchesTriple (u t : Nat) (k : LikeType) (l : LikeDoc) : Bool :=
  l.user == u && l.type == k &&
    (match k with
     | LikeType.clip => l.clip == some t
     | LikeType.comment => l.comment == some t)

/-- At most one Like record per (actor, target, kind) triple: the store
invariant the unique sparse indexes of LikeSchema enforce. -/
def atMostOnePerTriple (likes : List LikeDoc) : Prop :=
  ∀ u t k, likes.countP (matchesTriple u t k) ≤ 1

/-! ## The clip routes (src/routes/clips.js) -/

/-- A clip as the feed returns it: the stored record plus live-aggregated
counts and the per-viewer liked flag. -/
structure EnrichedClip where
  clip : ClipDoc
  likesCount : Nat
  commentsCount : Nat
  isLiked : Bool
deriving DecidableEq, Repr

/-- Per-clip enrichment shared by GET / and GET /:id (clips.js lines
87-117 and 145-175).  The likes and comments counts are countDocuments
queries.  The isLiked computation reads req.headers.authorization and, when
present, enters a try block that calls jwt.verify; clips.js never imports
the jsonwebtoken module, so that call raises a ReferenceError which the
surrounding catch swallows, leaving isLiked at false.  The authorization
header therefore never influences the result. -/
def enrichClip (st : AppState) (authHeader : Option String) (c : ClipDoc) :
    EnrichedClip :=
  { clip := c
    likesCount := st.likes.countP (clipLike c.id)
    commentsCount := st.comments.countP (fun cm => cm.clip == c.id)
    isLiked := match authHeader with
      | none => false
      | some _ => false }

/-- Descending insertion on createdAt, modelling Clip.find().sort with
createdAt -1. -/
def insertDesc (c : ClipDoc) : List ClipDoc → List ClipDoc
  | [] => [c]
  | d :: r => if c.createdAt ≥ d.createdAt then c :: d :: r else d :: insertDesc c r

/-- Sort of the clip collection by creation time, newest first. -/
def sortByCreatedDesc (l : List ClipDoc) : List ClipDoc :=
  l.foldr insertDesc []

/-- Response shape of GET / (clips.js lines 119-125). -/
structure FeedResponse where
  clips : List EnrichedClip
  page : Nat
  totalPages : Nat
  totalClips : Nat
  hasMore : Bool
deriving DecidableEq, Repr

/-- Embeds the GET / feed handler (clips.js lines 70-130): sort by
createdAt descending, skip (page-1)*limit, take limit, enrich each clip,
and report pagination metadata. -/
def getClips (st : AppState) (page limit : Nat) (authHeader : Option String) :
    FeedResponse :=
  let sorted := sortByCreatedDesc st.clips
  let paged := (sorted.drop ((page - 1) * limit)).take limit
  let total := st.clips.length
  { clips := paged.map (enrichClip st authHeader)
    page := page
    totalPages := (total + limit - 1) / limit
    totalClips := total
    hasMore := page * limit < total }

/-- Errors the handlers surface via non-200 statuses. -/
inductive RouteErr where
  | notFound
  | forbidden
deriving DecidableEq, Repr

/-- Clip.findById on an optional id: querying with undefined (mongoose
turns findById(undefined) into a find on a null id) matches nothing. -/
def clipFindById (oid : Option Nat) (l : List ClipDoc) : Option ClipDoc :=
  match oid with
  | none => none
  | some i => l.find? (fun c => c.id == i)

/-- Embeds the GET /:id handler (clips.js lines 135-181).  The handler
looks the clip up by req.query.id — not by the req.params.id path
parameter, which it never reads — so the path id only documents the
request shape here. -/
def getOne (st : AppState) (pathId : Nat) (queryId : Option Nat)
    (authHeader : Option String) : Except RouteErr EnrichedClip :=
  match clipFindById queryId st.clips with
  | none => Except.error RouteErr.notFound
  | some clip => Except.ok (enrichClip st authHeader clip)

/-- The Like document the toggle saves: new Like({user, clip, type}) of
clips.js lines 249-253. -/
def toggleRecord (userId clipId : Nat) : LikeDoc :=
  { user := userId, clip := some clipId, comment := none, type := LikeType.clip }

/-- Embeds the POST /:id/like handler (clips.js lines 217-269), run by an
authenticated viewer: 404 when the clip is absent; otherwise delete the
existing Like for (viewer, clip, clip-kind) or insert a fresh one, and
return the new isLiked flag together with the recount. -/
def toggleLike (st : AppState) (userId clipId : Nat) :
    Option (Bool × Nat × AppState) :=
  match st.clips.find? (fun c => c.id == clipId) with
  | none => none
  | some _ =>
    match st.likes.find? (likeMatches userId clipId) with
    | some _ =>
      let likes' := st.likes.eraseP (likeMatches userId clipId)
      some (false, likes'.countP (clipLike clipId), { st with likes := likes' })
    | none =>
      let likes' := st.likes ++ [toggleRecord userId clipId]
      some (true, likes'.countP (clipLike clipId), { st with likes := likes' })

/-- Embeds the POST /:id/comments handler (clips.js lines 274-317), run by
an authenticated viewer: 404 when the clip is absent, else the comment is
saved. -/
def addComment (st : AppState) (userId clipId : Nat) (content : String) :
    Option AppState :=
  match st.clips.find? (fun c => c.id == clipId) with
  | none => none
  | some _ =>
    some { st with comments := st.comments ++ [{ user := userId, clip := clipId, content := content }] }

/-- Embeds the DELETE /:id handler (clips.js lines 375-400): 404 when the
clip is absent, 403 when the requester does not own it, else delete the
clip's comments, its clip-kind likes, and the clip itself. -/
def deleteClip (st : AppState) (userId clipId : Nat) :
    Except RouteErr AppState :=
  match st.clips.find? (fun c => c.id == clipId) with
  | none => Except.error RouteErr.notFound
  | some clip =>
    if clip.user ≠ userId then Except.error RouteErr.forbidden
    else
      Except.ok
        { clips := st.clips.eraseP (fun c => c.id == clipId)
          comments := st.comments.filter (fun cm => !(cm.clip == clipId))
          likes := st.likes.filter (fun l => !(l.clip == some clipId && l.type == LikeType.clip)) }

/-- The store contents after a DELETE /:id request: unchanged when the
handler returned early with an error response, since all three deleteMany
and findByIdAndDelete calls sit after the ownership check. -/
def deleteClipState (st : AppState) (userId clipId : Nat) : AppState :=
  match deleteClip st userId clipId with
  | Except.ok st' => st'
  | Except.error _ => st

/-- States reachable through the state-mutating clip routes, starting from
empty stores: clip creation (POST /), like toggling (POST /:id/like),
comment creation (POST /:id/comments) and owner deletion (DELETE /:id). -/
inductive Reachable : AppState → Prop where
  | init : Reachable ⟨[], [], []⟩
  | create (st : AppState) (cl : ClipDoc) : Reachable st →
      Reachable { st with clips := st.clips ++ [cl] }
  | comment (st : AppState) (u c : Nat) (content : String) (st' : AppState) :
      Reachable st → addComment st u c content = some st' → Reachable st'
  | toggle (st : AppState) (u c : Nat) (b : Bool) (n : Nat) (st' : AppState) :
      Reachable st → toggleLike st u c = some (b, n, st') → Reachable st'
  | delete (st : AppState) (u c : Nat) (st' : AppState) :
      Reachable st → deleteClip st u c = Except.ok st' → Reachable st'

/-- A concrete stored clip, owned by user 7, used to instantiate the route
theorems. -/
def sampleClip : ClipDoc :=
  { id := 1, user := 7, title := "t", description := "",
    youtubeUrl := "https://www.youtube.com/watch?v=dQw4w9WgXcQ",
    youtubeVideoId := "dQw4w9WgXcQ", thumbnailUrl := "", duration := "0:10",
    startTimeSeconds := some 0, endTimeSeconds := none, createdAt := 0 }

/-- A clip-kind Like by user u on clip c. -/
def sampleLike (u c : Nat) : LikeDoc :=
  { user := u, clip := some c, comment := none, type := LikeType.clip }

/-- A comment by user u on clip c. -/
def sampleComment (u c : Nat) : CommentDoc :=
  { user := u, clip := c, content := "hi" }

/-- A store holding one clip (id 1, owner 7), one comment on it and one
clip-kind like on it by its owner. -/
def sampleState : AppState :=
  { clips := [sampleClip], comments := [sampleComment 9 1], likes := [sampleLike 7 1] }

/-! ### Digit-string lemmas -/

theorem natDigitsAux_fuel_irrel (n : Nat) : ∀ f₁ f₂, n < f₁ → n < f₂ →
    natDigitsAux f₁ n = natDigitsAux f₂ n := by
  induction n using Nat.strong_induction_on with
  | _ n ih =>
    intro f₁ f₂ h₁ h₂
    match f₁, f₂ with
    | g₁ + 1, g₂ + 1 =>
      simp only [natDigitsAux]
      by_cases hn : n < 10
      · simp [hn]
      · have hdiv : n / 10 < n := Nat.div_lt_self (by omega) (by omega)
        simp only [if_neg hn]
        rw [ih (n / 10) hdiv g₁ g₂ (by omega) (by omega)]

/-- The recurrence natDigits satisfies, mirroring repeated division by 10. -/
theorem natDigits_eq (n : Nat) :
    natDigits n = if n < 10 then [Char.ofNat (48 + n)]
      else natDigits (n / 10) ++ [Char.ofNat (48 + n % 10)] := by
  by_cases hn : n < 10
  · simp [natDigits, natDigitsAux, hn]
  · have hdiv : n / 10 < n := Nat.div_lt_self (by omega) (by omega)
    have hstep : natDigitsAux (n + 1) n
        = natDigitsAux n (n / 10) ++ [Char.ofNat (48 + n % 10)] := by
      conv_lhs => rw [natDigitsAux]
      rw [if_neg hn]
    rw [natDigits, hstep, if_neg hn, natDigits,
      natDigitsAux_fuel_irrel (n / 10) n (n / 10 + 1) (by omega) (by omega)]

theorem char_ofNat_digit (d : Nat) (h : d < 10) :
    (Char.ofNat (48 + d)).isDigit = true := by
  interval_cases d <;> decide

theorem char_ofNat_toNat (d : Nat) (h : d < 10) :
    (Char.ofNat (48 + d)).toNat = 48 + d := by
  interval_cases d <;> decide

theorem digit_ne_colon {c : Char} (h : c.isDigit = true) : c ≠ ':' := by
  intro hc; subst hc; exact absurd h (by decide)

theorem digit_ne_minus {c : Char} (h : c.isDigit = true) : c ≠ '-' := by
  intro hc; subst hc; exact absurd h (by decide)

theorem natDigits_ne_nil (n : Nat) : natDigits n ≠ [] := by
  rw [natDigits_eq]
  by_cases h : n < 10 <;> simp [h]

theorem natDigits_all_digit (n : Nat) : ∀ c ∈ natDigits n, c.isDigit = true := by
  induction n using Nat.strong_induction_on with
  | _ n ih =>
    rw [natDigits_eq]
    by_cases h : n < 10
    · simp only [if_pos h, List.mem_singleton]
      rintro c rfl
      exact char_ofNat_digit n h
    · simp only [if_neg h, List.mem_append, List.mem_singleton]
      rintro c (hc | rfl)
      · exact ih (n / 10) (Nat.div_lt_self (by omega) (by omega)) c hc
      · exact char_ofNat_digit (n % 10) (Nat.mod_lt n (by omega))

theorem pad2_all_digit {l : List Char} (h : ∀ c ∈ l, c.isDigit = true) :
    ∀ c ∈ pad2 l, c.isDigit = true := by
  intro c hc
  rcases List.mem_append.mp hc with hrep | hl
  · rw [List.eq_of_mem_replicate hrep]; decide
  · exact h c hl

theorem pad2_ne_nil {l : List Char} (h : l ≠ []) : pad2 l ≠ [] := by
  simp only [pad2, ne_eq, List.append_eq_nil]
  rintro ⟨-, rfl⟩
  exact h rfl

theorem valDigits_append_singleton (a : List Char) (c : Char) :
    valDigits (a ++ [c]) = valDigits a * 10 + (c.toNat - 48) := by
  simp [valDigits, List.foldl_append]

theorem valDigits_replicate_zero_prefix (k : Nat) (l : List Char) :
    valDigits (List.replicate k '0' ++ l) = valDigits l := by
  induction k with
  | zero => simp
  | succ k ih =>
    simpa [valDigits, List.replicate_succ] using ih

theorem valDigits_pad2 (l : List Char) : valDigits (pad2 l) = valDigits l :=
  valDigits_replicate_zero_prefix _ l

theorem valDigits_natDigits (n : Nat) : valDigits (natDigits n) = n := by
  induction n using Nat.strong_induction_on with
  | _ n ih =>
    rw [natDigits_eq]
    by_cases h : n < 10
    · simp only [if_pos h]
      show valDigits ([] ++ [Char.ofNat (48 + n)]) = n
      rw [valDigits_append_singleton, char_ofNat_toNat n h]
      simp [valDigits]
    · simp only [if_neg h]
      rw [valDigits_append_singleton,
        ih (n / 10) (Nat.div_lt_self (by omega) (by omega)),
        char_ofNat_toNat (n % 10) (Nat.mod_lt n (by omega))]
      omega

theorem jsNum_of_digits {l : List Char} (hne : l ≠ [])
    (hd : ∀ c ∈ l, c.isDigit = true) : jsNum l = some (valDigits l : Int) := by
  have hall : l.all (fun c => c.isDigit) = true := List.all_eq_true.mpr hd
  simp [jsNum, hne, hall]
  rintro hh - -
  cases l with
  | nil => exact absurd rfl hne
  | cons c rest =>
    have hc : c = '-' := by simpa using hh
    exact absurd hc (digit_ne_minus (hd c (by simp)))

theorem splitOnColon_ne_nil (l : List Char) : splitOnColon l ≠ [] := by
  match l with
  | [] => simp [splitOnColon]
  | c :: rest =>
    by_cases h : c = ':'
    · simp [splitOnColon, h]
    · simp only [splitOnColon, if_neg h]
      cases hrec : splitOnColon rest <;> simp

theorem splitOnColon_no_colon {a : List Char} (h : ∀ c ∈ a, c ≠ ':') :
    splitOnColon a = [a] := by
  induction a with
  | nil => rfl
  | cons c rest ih =>
    have hc : c ≠ ':' := h c (by simp)
    rw [splitOnColon, if_neg hc, ih (fun x hx => h x (by simp [hx]))]

theorem splitOnColon_append {a : List Char} (b : List Char)
    (h : ∀ c ∈ a, c ≠ ':') :
    splitOnColon (a ++ ':' :: b) = a :: splitOnColon b := by
  induction a with
  | nil => simp [splitOnColon]
  | cons c rest ih =>
    have hc : c ≠ ':' := h c (by simp)
    rw [List.cons_append, splitOnColon, if_neg hc,
      ih (fun x hx => h x (by simp [hx]))]

theorem natDigits_no_colon (n : Nat) : ∀ c ∈ natDigits n, c ≠ ':' :=
  fun c hc => digit_ne_colon (natDigits_all_digit n c hc)

theorem pad2_natDigits_no_colon (n : Nat) : ∀ c ∈ pad2 (natDigits n), c ≠ ':' :=
  fun c hc => digit_ne_colon (pad2_all_digit (natDigits_all_digit n) c hc)

/-- jsNum applied to a natural rendered in decimal recovers the natural. -/
theorem jsNum_natDigits (n : Nat) : jsNum (natDigits n) = some (n : Int) := by
  rw [jsNum_of_digits (natDigits_ne_nil n) (natDigits_all_digit n),
    valDigits_natDigits]

/-- jsNum applied to a zero-padded decimal rendering recovers the natural. -/
theorem jsNum_pad2_natDigits (n : Nat) :
    jsNum (pad2 (natDigits n)) = some (n : Int) := by
  rw [jsNum_of_digits (pad2_ne_nil (natDigits_ne_nil n))
      (pad2_all_digit (natDigits_all_digit n)),
    valDigits_pad2, valDigits_natDigits]

theorem string_mk_ne_empty {l : List Char} (h : l ≠ []) : (⟨l⟩ : String) ≠ "" := by
  intro heq
  exact h (by simpa using congrArg String.data heq)

/-- Claim C8: for every integer s with 0 ≤ s ≤ 359999, parsing the string
produced by the duration formatter yields s back:
timeToSeconds (formatDuration s) = s, where formatDuration renders h:mm:ss
when the hour component is positive and m:ss otherwise, zero-padding the
trailing components to width 2. -/
theorem parse_format_roundtrip (s : Nat) (hs : s ≤ 359999) :
    timeToSeconds (formatDuration s) = some (s : Int) := by
  by_cases hz : s = 0
  · subst hz; decide
  by_cases hh : s / 3600 > 0
  · -- three-part branch h:mm:ss
    have hfmt : formatDuration s = ⟨natDigits (s / 3600) ++ ':' ::
        (pad2 (natDigits (s % 3600 / 60)) ++ ':' :: pad2 (natDigits (s % 60)))⟩ := by
      simp [formatDuration, hh]
    have hsplit : splitOnColon (natDigits (s / 3600) ++ ':' ::
        (pad2 (natDigits (s % 3600 / 60)) ++ ':' :: pad2 (natDigits (s % 60))))
        = [natDigits (s / 3600), pad2 (natDigits (s % 3600 / 60)),
           pad2 (natDigits (s % 60))] := by
      rw [splitOnColon_append _ (natDigits_no_colon _),
        splitOnColon_append _ (pad2_natDigits_no_colon _),
        splitOnColon_no_colon (pad2_natDigits_no_colon _)]
    have hne1 : formatDuration s ≠ "" := by
      rw [hfmt]
      exact string_mk_ne_empty (by simp [natDigits_ne_nil])
    have hne2 : formatDuration s ≠ "0:00" := by
      rw [hfmt]
      intro heq
      have hdata := congrArg String.data heq
      simp only at hdata
      have := congrArg splitOnColon hdata
      rw [hsplit] at this
      have hlen := congrArg List.length this
      simp [splitOnColon] at hlen
    rw [timeToSeconds, if_neg (by push_neg; exact ⟨hne1, hne2⟩), hfmt]
    show (match (splitOnColon _).map jsNum with
      | [a, b] => _ | [a, b, c] => _ | _ => some 0) = some (s : Int)
    rw [hsplit]
    simp only [List.map, jsNum_natDigits, jsNum_pad2_natDigits]
    show some _ = some (s : Int)
    congr 1
    omega
  · -- two-part branch m:ss
    have hfmt : formatDuration s = ⟨natDigits (s % 3600 / 60) ++ ':' ::
        pad2 (natDigits (s % 60))⟩ := by
      simp [formatDuration, hh]
    have hsplit : splitOnColon (natDigits (s % 3600 / 60) ++ ':' ::
        pad2 (natDigits (s % 60)))
        = [natDigits (s % 3600 / 60), pad2 (natDigits (s % 60))] := by
      rw [splitOnColon_append _ (natDigits_no_colon _),
        splitOnColon_no_colon (pad2_natDigits_no_colon _)]
    have hne1 : formatDuration s ≠ "" := by
      rw [hfmt]
      exact string_mk_ne_empty (by simp [natDigits_ne_nil])
    have hne2 : formatDuration s ≠ "0:00" := by
      rw [hfmt]
      intro heq
      have hdata := congrArg String.data heq
      simp only at hdata
      have hsp := congrArg splitOnColon hdata
      rw [hsplit] at hsp
      have hsp' : splitOnColon ['0', ':', '0', '0'] = [['0'], ['0', '0']] := by decide
      rw [hsp'] at hsp
      obtain ⟨h1, h2⟩ : natDigits (s % 3600 / 60) = ['0'] ∧
          pad2 (natDigits (s % 60)) = ['0', '0'] := by simpa using hsp
      have hv1 := valDigits_natDigits (s % 3600 / 60)
      have hv2 : valDigits (pad2 (natDigits (s % 60))) = s % 60 := by
        rw [valDigits_pad2, valDigits_natDigits]
      rw [h1] at hv1
      rw [h2] at hv2
      have hz1 : valDigits ['0'] = 0 := by decide
      have hz2 : valDigits ['0', '0'] = 0 := by decide
      omega
    rw [timeToSeconds, if_neg (by push_neg; exact ⟨hne1, hne2⟩), hfmt]
    show (match (splitOnColon _).map jsNum with
      | [a, b] => _ | [a, b, c] => _ | _ => some 0) = some (s : Int)
    rw [hsplit]
    simp only [List.map, jsNum_natDigits, jsNum_pad2_natDigits]
    show some _ = some (s : Int)
    congr 1
    omega

/-- Concrete instantiation of the round-trip theorem at 3723 seconds. -/
theorem parse_format_roundtrip_witness :
    3723 ≤ 359999 ∧ timeToSeconds (formatDuration 3723) = some (3723 : Int) :=
  ⟨by decide, parse_format_roundtrip 3723 (by decide)⟩

example : timeToSeconds "1:02:03" = some 3723 := by decide
example : timeToSeconds "2:30" = some 150 := by decide
example : timeToSeconds "" = some 0 := by decide
example : timeToSeconds "0:00" = some 0 := by decide
example : formatDuration 3723 = "1:02:03" := by decide
example : formatDuration 150 = "2:30" := by decide
example : formatDuration 0 = "0:00" := by decide
example : mssFormat 3700 = "61:40" := by decide

/-! ### Video-id matcher lemmas -/

example : extractVideoId "https://www.youtube.com/watch?v=dQw4w9WgXcQ" = some "dQw4w9WgXcQ" := by decide
example : extractVideoId "https://youtu.be/dQw4w9WgXcQ" = some "dQw4w9WgXcQ" := by decide
example : extractVideoId "https://www.youtube.com/embed/dQw4w9WgXcQ" = some "dQw4w9WgXcQ" := by decide
example : extractVideoId "https://www.youtube.com/v/dQw4w9WgXcQ" = some "dQw4w9WgXcQ" := by decide
example : extractVideoId "https://example.com" = none := by decide
example : extractVideoId "https://youtu.be/short" = none := by decide
example : extractVideoId "https://www.youtube.com/watch?v=dQw4w9WgXcQ&t=10s" = some "dQw4w9WgXcQ" := by decide

theorem ytIdChar_ne {c : Char} (h : ytIdChar c = true) :
    c ≠ '/' ∧ c ≠ '?' ∧ c ≠ '#' ∧ c ≠ '&' ∧ c ≠ '=' := by
  refine ⟨?_, ?_, ?_, ?_, ?_⟩ <;> (rintro rfl; exact absurd h (by decide))

theorem altAt_safe {l : List Char} (h : ∀ c ∈ l, c ≠ '/' ∧ c ≠ '?') :
    altAt l = none := by
  have h1 : ¬(l.take 5 = ['y', 'o', 'u', 't', 'u'] ∧
      (l.drop 6).take 3 = ['b', 'e', '/']) := by
    rintro ⟨-, hb⟩
    have hm : '/' ∈ l := by
      have : '/' ∈ (l.drop 6).take 3 := by rw [hb]; simp
      exact List.drop_subset 6 l (List.take_subset 3 (l.drop 6) this)
    exact (h '/' hm).1 rfl
  have h2 : ¬(l.take 2 = ['v', '/']) := by
    intro hb
    have hm : '/' ∈ l := by
      have : '/' ∈ l.take 2 := by rw [hb]; simp
      exact List.take_subset 2 l this
    exact (h '/' hm).1 rfl
  have h3 : ¬(l.take 3 = ['/', 'u', '/']) := by
    intro hb
    have hm : '/' ∈ l := by
      have : '/' ∈ l.take 3 := by rw [hb]; simp
      exact List.take_subset 3 l this
    exact (h '/' hm).1 rfl
  have h4 : ¬(l.take 6 = ['e', 'm', 'b', 'e', 'd', '/']) := by
    intro hb
    have hm : '/' ∈ l := by
      have : '/' ∈ l.take 6 := by rw [hb]; simp
      exact List.take_subset 6 l this
    exact (h '/' hm).1 rfl
  have h5 : ¬(l.take 6 = ['w', 'a', 't', 'c', 'h', '?']) := by
    intro hb
    have hm : '?' ∈ l := by
      have : '?' ∈ l.take 6 := by rw [hb]; simp
      exact List.take_subset 6 l this
    exact (h '?' hm).2 rfl
  simp [altAt, h1, h2, h3, h4, h5]

theorem lastAltPos_safe {l : List Char} (h : ∀ c ∈ l, c ≠ '/' ∧ c ≠ '?') :
    lastAltPos l = none := by
  induction l with
  | nil => rfl
  | cons c rest ih =>
    have hr := ih (fun x hx => h x (List.mem_cons_of_mem c hx))
    simp [lastAltPos, hr, altAt_safe h]

theorem lastAltPos_cons_none {rest : List Char} {c : Char}
    (h : lastAltPos rest = none) (ha : altAt (c :: rest) = none) :
    lastAltPos (c :: rest) = none := by
  simp [lastAltPos, h, ha]

theorem lastAltPos_cons_start {rest : List Char} {c : Char} {k : Nat}
    (h : lastAltPos rest = none) (ha : altAt (c :: rest) = some k) :
    lastAltPos (c :: rest) = some (0, k) := by
  simp [lastAltPos, h, ha]

theorem lastAltPos_append_found (p : List Char) {t : List Char} {i k : Nat}
    (h : lastAltPos t = some (i, k)) :
    lastAltPos (p ++ t) = some (p.length + i, k) := by
  induction p with
  | nil => simpa using h
  | cons c p ih =>
    show lastAltPos (c :: (p ++ t)) = _
    rw [lastAltPos, ih]
    simp only [List.length_cons]
    congr 2
    omega

theorem altAt_slash_safe {l : List Char} (h : ∀ c ∈ l, c ≠ '/' ∧ c ≠ '?') :
    altAt ('/' :: l) = none := by
  have h3 : ¬(('/' :: l).take 3 = ['/', 'u', '/'] ∧ uPathTail (('/' :: l).drop 3)) := by
    rintro ⟨hb, -⟩
    have hm : '/' ∈ l := by
      have h2 : l.take 2 = ['u', '/'] := by simpa using hb
      have : '/' ∈ l.take 2 := by rw [h2]; simp
      exact List.take_subset 2 l this
    exact (h '/' hm).1 rfl
  simp only [altAt, h3, if_false]
  simp [altAt]

theorem takeWhile_of_all {p : Char → Bool} {l : List Char}
    (h : ∀ c ∈ l, p c = true) : l.takeWhile p = l := by
  induction l with
  | nil => rfl
  | cons c rest ih =>
    rw [List.takeWhile_cons, if_pos (h c (by simp)),
      ih (fun x hx => h x (List.mem_cons_of_mem c hx))]

theorem afterOpt_of_id {id : List Char} (hsafe : ∀ c ∈ id, ytIdChar c = true)
    (hv : id.head? ≠ some 'v') : afterOpt id = id := by
  cases id with
  | nil => rfl
  | cons c0 rest =>
    obtain ⟨-, hq, -, -, he⟩ := ytIdChar_ne (hsafe c0 (by simp))
    have hv' : c0 ≠ 'v' := by simpa using hv
    simp [afterOpt, hq, hv', he]

theorem extractVideoIdL_length {l cap : List Char}
    (h : extractVideoIdL l = some cap) : cap.length = 11 := by
  unfold extractVideoIdL at h
  match hl : lastAltPos l with
  | none => rw [hl] at h; exact absurd h (by simp)
  | some (i, k) =>
    rw [hl] at h
    simp only at h
    split at h
    · cases h
      assumption
    · exact absurd h (by simp)

theorem extractVideoIdL_youtuBe (id : List Char) (hlen : id.length = 11)
    (hsafe : ∀ c ∈ id, ytIdChar c = true) (hv : id.head? ≠ some 'v') :
    extractVideoIdL ("https://youtu.be/".data ++ id) = some id := by
  have hsafe' : ∀ c ∈ id, c ≠ '/' ∧ c ≠ '?' := fun c hc =>
    ⟨(ytIdChar_ne (hsafe c hc)).1, (ytIdChar_ne (hsafe c hc)).2.1⟩
  have hid := lastAltPos_safe hsafe'
  have n16 : lastAltPos ('/' :: id) = none :=
    lastAltPos_cons_none hid (altAt_slash_safe hsafe')
  have n15 : lastAltPos ('e' :: '/' :: id) = none :=
    lastAltPos_cons_none n16 (by simp [altAt, uPathTail])
  have n14 : lastAltPos ('b' :: 'e' :: '/' :: id) = none :=
    lastAltPos_cons_none n15 (by simp [altAt, uPathTail])
  have n13 : lastAltPos ('.' :: 'b' :: 'e' :: '/' :: id) = none :=
    lastAltPos_cons_none n14 (by simp [altAt, uPathTail])
  have n12 : lastAltPos ('u' :: '.' :: 'b' :: 'e' :: '/' :: id) = none :=
    lastAltPos_cons_none n13 (by simp [altAt, uPathTail])
  have n11 : lastAltPos ('t' :: 'u' :: '.' :: 'b' :: 'e' :: '/' :: id) = none :=
    lastAltPos_cons_none n12 (by simp [altAt, uPathTail])
  have n10 : lastAltPos ('u' :: 't' :: 'u' :: '.' :: 'b' :: 'e' :: '/' :: id) = none :=
    lastAltPos_cons_none n11 (by simp [altAt, uPathTail])
  have n9 : lastAltPos ('o' :: 'u' :: 't' :: 'u' :: '.' :: 'b' :: 'e' :: '/' :: id) = none :=
    lastAltPos_cons_none n10 (by simp [altAt, uPathTail])
  have hfound : lastAltPos
      ('y' :: 'o' :: 'u' :: 't' :: 'u' :: '.' :: 'b' :: 'e' :: '/' :: id) = some (0, 9) :=
    lastAltPos_cons_start n9 (by simp [altAt])
  have hlast : lastAltPos ("https://youtu.be/".data ++ id) = some (8, 9) := by
    have happ := lastAltPos_append_found
      ['h', 't', 't', 'p', 's', ':', '/', '/'] hfound
    simpa using happ
  have hdrop : ("https://youtu.be/".data ++ id).drop (8 + 9) = id := by
    have : ("https://youtu.be/".data).length = 17 := rfl
    rw [show 8 + 9 = ("https://youtu.be/".data).length from rfl, List.drop_left]
  have hcap : (afterOpt (("https://youtu.be/".data ++ id).drop (8 + 9))).takeWhile
      (fun c => !(c == '#' || c == '&' || c == '?')) = id := by
    rw [hdrop, afterOpt_of_id hsafe hv]
    refine takeWhile_of_all (fun c hc => ?_)
    obtain ⟨-, hq, hh, ha, -⟩ := ytIdChar_ne (hsafe c hc)
    simp [hh, ha, hq]
  unfold extractVideoIdL
  rw [hlast]
  simp only [hcap, hlen, if_pos]

theorem extractVideoIdL_embed (id : List Char) (hlen : id.length = 11)
    (hsafe : ∀ c ∈ id, ytIdChar c = true) (hv : id.head? ≠ some 'v') :
    extractVideoIdL ("https://www.youtube.com/embed/".data ++ id) = some id := by
  have hsafe' : ∀ c ∈ id, c ≠ '/' ∧ c ≠ '?' := fun c hc =>
    ⟨(ytIdChar_ne (hsafe c hc)).1, (ytIdChar_ne (hsafe c hc)).2.1⟩
  have hid := lastAltPos_safe hsafe'
  have n29 : lastAltPos ('/' :: id) = none :=
    lastAltPos_cons_none hid (altAt_slash_safe hsafe')
  have n28 : lastAltPos ('d' :: '/' :: id) = none :=
    lastAltPos_cons_none n29 (by simp [altAt, uPathTail])
  have n27 : lastAltPos ('e' :: 'd' :: '/' :: id) = none :=
    lastAltPos_cons_none n28 (by simp [altAt, uPathTail])
  have n26 : lastAltPos ('b' :: 'e' :: 'd' :: '/' :: id) = none :=
    lastAltPos_cons_none n27 (by simp [altAt, uPathTail])
  have n25 : lastAltPos ('m' :: 'b' :: 'e' :: 'd' :: '/' :: id) = none :=
    lastAltPos_cons_none n26 (by simp [altAt, uPathTail])
  have hfound : lastAltPos
      ('e' :: 'm' :: 'b' :: 'e' :: 'd' :: '/' :: id) = some (0, 6) :=
    lastAltPos_cons_start n25 (by simp [altAt])
  have hlast : lastAltPos ("https://www.youtube.com/embed/".data ++ id) = some (24, 6) := by
    have happ := lastAltPos_append_found
      ['h', 't', 't', 'p', 's', ':', '/', '/', 'w', 'w', 'w', '.',
       'y', 'o', 'u', 't', 'u', 'b', 'e', '.', 'c', 'o', 'm', '/'] hfound
    simpa using happ
  have hdrop : ("https://www.youtube.com/embed/".data ++ id).drop (24 + 6) = id := by
    rw [show (24 + 6 : Nat) = ("https://www.youtube.com/embed/".data).length from rfl,
      List.drop_left]
  have hcap : (afterOpt (("https://www.youtube.com/embed/".data ++ id).drop (24 + 6))).takeWhile
      (fun c => !(c == '#' || c == '&' || c == '?')) = id := by
    rw [hdrop, afterOpt_of_id hsafe hv]
    refine takeWhile_of_all (fun c hc => ?_)
    obtain ⟨-, hq, hh, ha, -⟩ := ytIdChar_ne (hsafe c hc)
    simp [hh, ha, hq]
  unfold extractVideoIdL
  rw [hlast]
  simp only [hcap, hlen, if_pos]

theorem extractVideoIdL_watch (id : List Char) (hlen : id.length = 11)
    (hsafe : ∀ c ∈ id, ytIdChar c = true) :
    extractVideoIdL ("https://www.youtube.com/watch?v=".data ++ id) = some id := by
  have hsafe' : ∀ c ∈ id, c ≠ '/' ∧ c ≠ '?' := fun c hc =>
    ⟨(ytIdChar_ne (hsafe c hc)).1, (ytIdChar_ne (hsafe c hc)).2.1⟩
  have hid := lastAltPos_safe hsafe'
  have n31 : lastAltPos ('=' :: id) = none :=
    lastAltPos_cons_none hid (by
      refine altAt_safe (fun c hc => ?_)
      rcases List.mem_cons.mp hc with rfl | hc
      · exact ⟨by decide, by decide⟩
      · exact hsafe' c hc)
  have n30 : lastAltPos ('v' :: '=' :: id) = none :=
    lastAltPos_cons_none n31 (by simp [altAt, uPathTail])
  have n29 : lastAltPos ('?' :: 'v' :: '=' :: id) = none :=
    lastAltPos_cons_none n30 (by simp [altAt, uPathTail])
  have n28 : lastAltPos ('h' :: '?' :: 'v' :: '=' :: id) = none :=
    lastAltPos_cons_none n29 (by simp [altAt, uPathTail])
  have n27 : lastAltPos ('c' :: 'h' :: '?' :: 'v' :: '=' :: id) = none :=
    lastAltPos_cons_none n28 (by simp [altAt, uPathTail])
  have n26 : lastAltPos ('t' :: 'c' :: 'h' :: '?' :: 'v' :: '=' :: id) = none :=
    lastAltPos_cons_none n27 (by simp [altAt, uPathTail])
  have n25 : lastAltPos ('a' :: 't' :: 'c' :: 'h' :: '?' :: 'v' :: '=' :: id) = none :=
    lastAltPos_cons_none n26 (by simp [altAt, uPathTail])
  have hfound : lastAltPos
      ('w' :: 'a' :: 't' :: 'c' :: 'h' :: '?' :: 'v' :: '=' :: id) = some (0, 6) :=
    lastAltPos_cons_start n25 (by simp [altAt])
  have hlast : lastAltPos ("https://www.youtube.com/watch?v=".data ++ id) = some (24, 6) := by
    have happ := lastAltPos_append_found
      ['h', 't', 't', 'p', 's', ':', '/', '/', 'w', 'w', 'w', '.',
       'y', 'o', 'u', 't', 'u', 'b', 'e', '.', 'c', 'o', 'm', '/'] hfound
    simpa using happ
  have hdrop : ("https://www.youtube.com/watch?v=".data ++ id).drop (24 + 6)
      = 'v' :: '=' :: id := by
    have h1 : "https://www.youtube.com/watch?v=".data ++ id
        = "https://www.youtube.com/watch?".data ++ ('v' :: '=' :: id) := rfl
    rw [h1, show (24 + 6 : Nat) = ("https://www.youtube.com/watch?".data).length from rfl,
      List.drop_left]
  have hcap : (afterOpt (("https://www.youtube.com/watch?v=".data ++ id).drop (24 + 6))).takeWhile
      (fun c => !(c == '#' || c == '&' || c == '?')) = id := by
    rw [hdrop]
    have hafter : afterOpt ('v' :: '=' :: id) = id := by simp [afterOpt]
    rw [hafter]
    refine takeWhile_of_all (fun c hc => ?_)
    obtain ⟨-, hq, hh, ha, -⟩ := ytIdChar_ne (hsafe c hc)
    simp [hh, ha, hq]
  unfold extractVideoIdL
  rw [hlast]
  simp only [hcap, hlen, if_pos]

/-- Claim C9 counterexample: the claim states that for any 11-character
identifier the short-link, embed and watch URL forms all yield that same
identifier.  For an identifier beginning with v this fails: the optional v
of the pattern consumes the identifier's first character in the short-link
and embed forms, leaving a 10-character capture that the length check
rejects, while the watch form still succeeds (there the optional v consumes
the query-parameter name). -/
theorem extractVideoId_counterexample :
    extractVideoId "https://www.youtube.com/watch?v=vvvvvvvvvvv" = some "vvvvvvvvvvv" ∧
    extractVideoId "https://youtu.be/vvvvvvvvvvv" = none ∧
    extractVideoId "https://www.youtube.com/embed/vvvvvvvvvvv" = none := by
  refine ⟨by decide, by decide, by decide⟩

/-- Claim C9 (amended): extractVideoId returns an identifier only when the
captured token is exactly 11 characters long; and for any 11-character
identifier over the platform id alphabet (alphanumerics, hyphen,
underscore) whose FIRST character is not v, the short-link, embed and
canonical watch URL forms all yield that identifier. -/
theorem extractVideoId_amended :
    (∀ url vid, extractVideoId url = some vid → vid.length = 11) ∧
    (∀ id : List Char, id.length = 11 → (∀ c ∈ id, ytIdChar c = true) →
      id.head? ≠ some 'v' →
      (extractVideoId ⟨"https://youtu.be/".data ++ id⟩ = some ⟨id⟩ ∧
       extractVideoId ⟨"https://www.youtube.com/embed/".data ++ id⟩ = some ⟨id⟩ ∧
       extractVideoId ⟨"https://www.youtube.com/watch?v=".data ++ id⟩ = some ⟨id⟩)) := by
  constructor
  · intro url vid h
    unfold extractVideoId at h
    match hL : extractVideoIdL url.data with
    | none => rw [hL] at h; cases h
    | some cap =>
      rw [hL] at h
      simp only [Option.map_some', Option.some.injEq] at h
      rw [← h]
      exact extractVideoIdL_length hL
  · intro id hlen hsafe hv
    refine ⟨?_, ?_, ?_⟩
    · show (extractVideoIdL ("https://youtu.be/".data ++ id)).map _ = _
      rw [extractVideoIdL_youtuBe id hlen hsafe hv]
      rfl
    · show (extractVideoIdL ("https://www.youtube.com/embed/".data ++ id)).map _ = _
      rw [extractVideoIdL_embed id hlen hsafe hv]
      rfl
    · show (extractVideoIdL ("https://www.youtube.com/watch?v=".data ++ id)).map _ = _
      rw [extractVideoIdL_watch id hlen hsafe]
      rfl

/-- Concrete instantiation of the amended claim C9: length of an accepted
capture, and agreement of the three URL forms on a standard identifier. -/
theorem extractVideoId_amended_witness :
    "dQw4w9WgXcQ".length = 11 ∧
    extractVideoId ⟨"https://youtu.be/".data ++ "dQw4w9WgXcQ".data⟩ = some "dQw4w9WgXcQ" ∧
    extractVideoId ⟨"https://www.youtube.com/embed/".data ++ "dQw4w9WgXcQ".data⟩ = some "dQw4w9WgXcQ" ∧
    extractVideoId ⟨"https://www.youtube.com/watch?v=".data ++ "dQw4w9WgXcQ".data⟩ = some "dQw4w9WgXcQ" := by
  have h := extractVideoId_amended.2 "dQw4w9WgXcQ".data (by decide) (by decide) (by decide)
  exact ⟨extractVideoId_amended.1 "https://www.youtube.com/watch?v=dQw4w9WgXcQ" "dQw4w9WgXcQ" (by decide),
    h.1, h.2.1, h.2.2⟩

/-! ### Extraction lemmas (trim window and duration string) -/

theorem mssFormat_ne_empty (n : Nat) : mssFormat n ≠ "" :=
  string_mk_ne_empty (by simp [natDigits_ne_nil])

/-- Claim C3 counterexample: extraction enforces no relation between the
parsed trim times.  Requesting the window 5:00-1:00 produces a record with
startTimeSeconds 300 and endTimeSeconds 60, both present, violating the
claimed invariant trim-end > trim-start. -/
theorem trim_invariant_counterexample :
    (extractVideoInfo "https://www.youtube.com/watch?v=dQw4w9WgXcQ" "5:00" "1:00"
      ⟨"t", some 300, none⟩).map
        (fun r => (r.startTimeSeconds, r.endTimeSeconds, trimOk r))
      = some (some 300, some (some 60), false) := by decide

/-- Claim C3 (amended): extraction does not enforce trim-end > trim-start;
a record with both trim fields present and end at most start is produced
normally, and in that case the trim window is ignored: the duration string
is the full-source one, the trim-span string being computed only under
end > start. -/
theorem trim_invariant_amended (url startTime endTime : String)
    (info : ProviderInfo) (r : ClipMedia) (s e : Int)
    (h : extractVideoInfo url startTime endTime info = some r)
    (hs : r.startTimeSeconds = some s)
    (he : r.endTimeSeconds = some (some e))
    (hle : e ≤ s) :
    r.duration = fullDurationString info := by
  unfold extractVideoInfo at h
  match hid : extractVideoId url with
  | none => rw [hid] at h; cases h
  | some vid =>
    rw [hid] at h
    simp only [Option.some.injEq] at h
    subst h
    simp only at hs he ⊢
    rw [he, hs]
    have hcond : ¬((e ≠ 0 ∧ s < e)) := by
      rintro ⟨-, hlt⟩
      omega
    simp [clipSpanString, hcond]

/-- Concrete instantiation of the amended claim C3 at the 5:00-1:00 trim
request: the record is produced and carries the full-source duration. -/
theorem trim_invariant_amended_witness :
    extractVideoInfo "https://www.youtube.com/watch?v=dQw4w9WgXcQ" "5:00" "1:00"
      ⟨"t", some 300, none⟩ = some
        { videoId := "dQw4w9WgXcQ", title := "t",
          thumbnailUrl := "https://img.youtube.com/vi/dQw4w9WgXcQ/hqdefault.jpg",
          duration := "5:00", startTimeSeconds := some 300,
          endTimeSeconds := some (some 60) } ∧
    ({ videoId := "dQw4w9WgXcQ", title := "t",
       thumbnailUrl := "https://img.youtube.com/vi/dQw4w9WgXcQ/hqdefault.jpg",
       duration := "5:00", startTimeSeconds := some 300,
       endTimeSeconds := some (some 60) } : ClipMedia).duration
      = fullDurationString ⟨"t", some 300, none⟩ :=
  ⟨by decide,
   trim_invariant_amended "https://www.youtube.com/watch?v=dQw4w9WgXcQ" "5:00" "1:00"
     ⟨"t", some 300, none⟩ _ 300 60 (by decide) (by decide) (by decide) (by decide)⟩

/-- Claim C10 counterexample: when the provider reports a total duration of
zero seconds (and no trim window is given), the claim says the duration
string is the formatted total, 0:00; the code's truthiness test on
videoInfo.duration skips formatting and the record carries the empty
string. -/
theorem duration_string_counterexample :
    (extractVideoInfo "https://www.youtube.com/watch?v=dQw4w9WgXcQ" "0:00" ""
      ⟨"t", some 0, none⟩).map (fun r => r.duration) = some "" ∧
    formatDuration 0 = "0:00" := by
  refine ⟨by decide, by decide⟩

/-- Claim C10 (amended): the duration string of an extracted ClipMedia is
the trim-span length in m:ss form whenever the parsed end time is nonzero
and strictly greater than the parsed start time, and otherwise the full
source duration formatted from the provider total when that total is
present and nonzero, the empty string when it is absent or zero. -/
theorem duration_string_amended (url startTime endTime : String)
    (info : ProviderInfo) (r : ClipMedia)
    (h : extractVideoInfo url startTime endTime info = some r) :
    r.duration = specDurationString startTime endTime info := by
  unfold extractVideoInfo at h
  match hid : extractVideoId url with
  | none => rw [hid] at h; cases h
  | some vid =>
    rw [hid] at h
    simp only [Option.some.injEq] at h
    subst h
    simp only [specDurationString]
    rcases hE : (if endTime ≠ "" then some (timeToSeconds endTime) else none) with - | E
    · simp [hE, clipSpanString, specDurationCore]
    · rcases E with - | e
      · simp [hE, clipSpanString, specDurationCore]
      · rcases hS : timeToSeconds startTime with - | s
        · simp [hE, hS, clipSpanString, specDurationCore]
        · by_cases hc : e ≠ 0 ∧ s < e
          · simp [clipSpanString, specDurationCore, hc, mssFormat_ne_empty (e - s).toNat]
          · simp [clipSpanString, specDurationCore, hc]

/-- Concrete instantiation of the amended claim C10 at a valid 0:05-1:00
trim window. -/
theorem duration_string_amended_witness :
    extractVideoInfo "https://www.youtube.com/watch?v=dQw4w9WgXcQ" "0:05" "1:00"
      ⟨"t", some 300, none⟩ = some
        { videoId := "dQw4w9WgXcQ", title := "t",
          thumbnailUrl := "https://img.youtube.com/vi/dQw4w9WgXcQ/hqdefault.jpg",
          duration := "0:55", startTimeSeconds := some 5,
          endTimeSeconds := some (some 60) } ∧
    ({ videoId := "dQw4w9WgXcQ", title := "t",
       thumbnailUrl := "https://img.youtube.com/vi/dQw4w9WgXcQ/hqdefault.jpg",
       duration := "0:55", startTimeSeconds := some 5,
       endTimeSeconds := some (some 60) } : ClipMedia).duration
      = specDurationString "0:05" "1:00" ⟨"t", some 300, none⟩ :=
  ⟨by decide,
   duration_string_amended "https://www.youtube.com/watch?v=dQw4w9WgXcQ" "0:05" "1:00"
     ⟨"t", some 300, none⟩ _ (by decide)⟩

/-! ### Route theorems -/

/-- Claim C1: the claim says an authenticated feed request returns, per
item, isLiked true exactly when the viewer's clip-kind Like exists.  The
code cannot do this: clips.js calls jwt.verify without ever importing the
jsonwebtoken module, so the ReferenceError is swallowed by the catch and
isLiked is false for EVERY authorization header.  Evaluated on a store
where the like of viewer 7 on clip 1 exists: whatever credential is
presented, the feed reports isLiked false while the Like is in the store.
The unauthenticated half of the claim (always false) does hold, as the
first conjunct shows for the absent header as well. -/
theorem feed_isLiked_ignores_auth (authHeader : Option String) :
    (getClips sampleState 1 10 authHeader).clips.map (fun ec => ec.isLiked)
      = [false] ∧
    sampleState.likes.countP (likeMatches 7 1) = 1 := by
  cases authHeader <;> exact ⟨rfl, rfl⟩

/-- Claim C2: the claim says GET /clips/:id 404s exactly when no clip with
the requested path id exists.  The handler looks up req.query.id instead
of the path parameter, so a plain GET /clips/1 (no query string) answers
404 even though clip 1 is in the store. -/
theorem getOne_ignores_path_id :
    getOne sampleState 1 none none = Except.error RouteErr.notFound ∧
    (sampleState.clips.find? (fun c => c.id == 1)).isSome = true := by
  exact ⟨rfl, rfl⟩

/-- Decomposition of a successful find?: the list splits at the first
match, and eraseP removes exactly that element. -/
theorem find?_decomp {α : Type} {p : α → Bool} {l : List α} {a : α}
    (h : l.find? p = some a) :
    ∃ l1 l2, l = l1 ++ a :: l2 ∧ (∀ x ∈ l1, p x = false) ∧ p a = true ∧
      l.eraseP p = l1 ++ l2 := by
  induction l with
  | nil => cases h
  | cons x rest ih =>
    cases hp : p x with
    | true =>
      rw [List.find?_cons_of_pos _ hp] at h
      obtain rfl : x = a := by exact Option.some.inj h
      exact ⟨[], rest, by simp, by simp, hp, by simp [List.eraseP_cons_of_pos hp]⟩
    | false =>
      rw [List.find?_cons_of_neg _ (by simp [hp])] at h
      obtain ⟨l1, l2, hsplit, hl1, hpa, herase⟩ := ih h
      refine ⟨x :: l1, l2, by simp [hsplit], ?_, hpa, ?_⟩
      · rintro y hy
        rcases List.mem_cons.mp hy with rfl | hy
        · exact hp
        · exact hl1 y hy
      · have hneg : ¬(p x = true) := by simp [hp]
        rw [List.eraseP_cons_of_neg hneg, herase]
        simp

/-- A like matching the toggle filter counts towards the clip's total. -/
theorem likeMatches_clipLike {u c : Nat} {l : LikeDoc}
    (h : likeMatches u c l = true) : clipLike c l = true := by
  simp only [likeMatches, Bool.and_eq_true, beq_iff_eq] at h
  simp only [clipLike, Bool.and_eq_true, beq_iff_eq]
  exact ⟨h.1.2, h.2⟩

/-- A like matching the toggle filter whose comment field is unset is
exactly the record the toggle inserts. -/
theorem likeMatches_eq {u c : Nat} {l : LikeDoc} (h : likeMatches u c l = true)
    (hcm : l.comment = none) : l = toggleRecord u c := by
  simp only [likeMatches, Bool.and_eq_true, beq_iff_eq] at h
  cases l
  simp_all [toggleRecord]

/-- The inserted record matches the toggle filter. -/
theorem likeMatches_toggleRecord (u c : Nat) :
    likeMatches u c (toggleRecord u c) = true := by
  simp [likeMatches, toggleRecord]

/-- Claim C4: for an existing clip and an authenticated viewer, toggling
the like twice in sequence (no interleaving) returns the system to its
original state: the second response's isLiked equals the liked state before
the first call, its likesCount equals the count before the first call, and
the Like store is unchanged up to order (the re-created record has a fresh
object id and timestamp, which the model abstracts).  The hypotheses are
the store invariants: at most one Like per (viewer, clip, clip-kind) (the
unique index) and clip-kind likes carry no comment reference. -/
theorem toggle_twice_roundtrip (st : AppState) (u c : Nat)
    (huniq : st.likes.countP (likeMatches u c) ≤ 1)
    (hwf : ∀ l ∈ st.likes, likeMatches u c l = true → l.comment = none)
    {b1 b2 : Bool} {n1 n2 : Nat} {st1 st2 : AppState}
    (h1 : toggleLike st u c = some (b1, n1, st1))
    (h2 : toggleLike st1 u c = some (b2, n2, st2)) :
    b2 = st.likes.any (likeMatches u c) ∧
    n2 = st.likes.countP (clipLike c) ∧
    st2.likes.Perm st.likes ∧ st2.clips = st.clips ∧ st2.comments = st.comments := by
  unfold toggleLike at h1 h2
  cases hcf : st.clips.find? (fun cl => cl.id == c) with
  | none => rw [hcf] at h1; cases h1
  | some clip =>
    rw [hcf] at h1
    cases hlf : st.likes.find? (likeMatches u c) with
    | some l0 =>
      -- initially liked: first toggle removes, second re-inserts
      rw [hlf] at h1
      simp only [Option.some.injEq, Prod.mk.injEq] at h1
      obtain ⟨hb1, hn1, hst1⟩ := h1
      obtain ⟨l1, l2, hsplit, hl1, hpl0, herase⟩ := find?_decomp hlf
      have hmem : l0 ∈ st.likes := List.mem_of_find?_eq_some hlf
      have hcount : st.likes.countP (likeMatches u c)
          = l1.countP (likeMatches u c) + (l2.countP (likeMatches u c) + 1) := by
        rw [hsplit, List.countP_append, List.countP_cons, if_pos hpl0]
      have hz1 : l1.countP (likeMatches u c) = 0 := by omega
      have hz2 : l2.countP (likeMatches u c) = 0 := by omega
      have hfnone : (l1 ++ l2).find? (likeMatches u c) = none := by
        rw [List.find?_eq_none]
        intro x hx
        rcases List.mem_append.mp hx with hx | hx
        · exact fun hp => absurd hp (by simpa using List.countP_eq_zero.mp hz1 x hx)
        · exact fun hp => absurd hp (by simpa using List.countP_eq_zero.mp hz2 x hx)
      rw [← hst1] at h2
      simp only at h2
      rw [hcf, herase, hfnone] at h2
      simp only [Option.some.injEq, Prod.mk.injEq] at h2
      obtain ⟨hb2, hn2, hst2⟩ := h2
      have hl0eq : l0 = toggleRecord u c := likeMatches_eq hpl0 (hwf l0 hmem hpl0)
      have hperm : (l1 ++ l2 ++ [toggleRecord u c]).Perm (l1 ++ l0 :: l2) := by
        rw [← hl0eq]
        exact (List.perm_append_singleton l0 (l1 ++ l2)).trans List.perm_middle.symm
      refine ⟨?_, ?_, ?_, ?_, ?_⟩
      · rw [← hb2]
        symm
        exact List.any_eq_true.mpr ⟨l0, hmem, hpl0⟩
      · rw [← hn2, hsplit]
        exact hperm.countP_eq _
      · rw [← hst2]
        show (l1 ++ l2 ++ [toggleRecord u c]).Perm st.likes
        rw [hsplit]
        exact hperm
      · rw [← hst2]
      · rw [← hst2]
    | none =>
      -- initially not liked: first toggle inserts, second removes it
      rw [hlf] at h1
      simp only [Option.some.injEq, Prod.mk.injEq] at h1
      obtain ⟨hb1, hn1, hst1⟩ := h1
      have hnomatch : ∀ x ∈ st.likes, ¬(likeMatches u c x = true) :=
        List.find?_eq_none.mp hlf
      have hfind : (st.likes ++ [toggleRecord u c]).find? (likeMatches u c)
          = some (toggleRecord u c) := by
        rw [List.find?_append, hlf]
        simp [List.find?, likeMatches_toggleRecord u c]
      have herase : (st.likes ++ [toggleRecord u c]).eraseP (likeMatches u c)
          = st.likes := by
        rw [List.eraseP_append_right _ hnomatch,
          List.eraseP_cons_of_pos (likeMatches_toggleRecord u c)]
        simp
      rw [← hst1] at h2
      simp only at h2
      rw [hcf, hfind] at h2
      simp only [Option.some.injEq, Prod.mk.injEq] at h2
      obtain ⟨hb2, hn2, hst2⟩ := h2
      have hany : st.likes.any (likeMatches u c) = false := by
        cases hany : st.likes.any (likeMatches u c) with
        | false => rfl
        | true =>
          obtain ⟨x, hx, hpx⟩ := List.any_eq_true.mp hany
          exact absurd hpx (hnomatch x hx)
      refine ⟨?_, ?_, ?_, ?_, ?_⟩
      · rw [← hb2, hany]
      · rw [← hn2, herase]
      · rw [← hst2]
        show ((st.likes ++ [toggleRecord u c]).eraseP (likeMatches u c)).Perm st.likes
        rw [herase]
      · rw [← hst2]
      · rw [← hst2]

/-- Concrete instantiation of claim C4: user 8 double-toggles clip 1 in a
store where they have not liked it; the responses and the store return to
the original values. -/
theorem toggle_twice_roundtrip_witness :
    sampleState.likes.countP (likeMatches 8 1) ≤ 1 ∧
    ((false : Bool) = sampleState.likes.any (likeMatches 8 1) ∧
      1 = sampleState.likes.countP (clipLike 1) ∧
      sampleState.likes.Perm sampleState.likes ∧
      sampleState.clips = sampleState.clips ∧
      sampleState.comments = sampleState.comments) := by
  refine ⟨by decide, ?_⟩
  have h1 : toggleLike sampleState 8 1 = some (true, 2,
      { sampleState with likes := sampleState.likes ++ [toggleRecord 8 1] }) := by decide
  have h2 : toggleLike { sampleState with likes := sampleState.likes ++ [toggleRecord 8 1] } 8 1
      = some (false, 1, sampleState) := by decide
  exact toggle_twice_roundtrip sampleState 8 1 (by decide) (by decide) h1 h2

/-- Claim C5: after a successful owner delete, the clip, every comment on
it, and every clip-kind like of it are gone from the stores.  The clip
store is assumed to hold distinct ids, as Mongo's primary key guarantees. -/
theorem deleteClip_cascade (st : AppState) (u c : Nat) (st' : AppState)
    (hnd : (st.clips.map (fun cl => cl.id)).Nodup)
    (h : deleteClip st u c = Except.ok st') :
    st'.clips.find? (fun cl => cl.id == c) = none ∧
    st'.comments.filter (fun cm => cm.clip == c) = [] ∧
    st'.likes.filter (fun l => l.clip == some c && l.type == LikeType.clip) = [] := by
  unfold deleteClip at h
  cases hcf : st.clips.find? (fun cl => cl.id == c) with
  | none => rw [hcf] at h; cases h
  | some clip =>
    rw [hcf] at h
    simp only at h
    by_cases hown : clip.user ≠ u
    · rw [if_pos hown] at h; cases h
    · rw [if_neg hown] at h
      simp only [Except.ok.injEq] at h
      subst h
      refine ⟨?_, ?_, ?_⟩
      · show (st.clips.eraseP (fun cl => cl.id == c)).find? (fun cl => cl.id == c) = none
        obtain ⟨l1, l2, hsplit, hl1, hpc, herase⟩ := find?_decomp hcf
        rw [herase, List.find?_eq_none]
        intro x hx hpx
        rcases List.mem_append.mp hx with hx | hx
        · exact absurd hpx (by simp [hl1 x hx])
        · have hcid : clip.id = c := by simpa using hpc
          have hxid : x.id = c := by simpa using hpx
          have hnd2 : (clip.id :: l2.map (fun cl => cl.id)).Nodup := by
            rw [hsplit] at hnd
            simp only [List.map_append, List.map_cons] at hnd
            exact List.Nodup.of_append_right hnd
          have hnotin : clip.id ∉ l2.map (fun cl => cl.id) := (List.nodup_cons.mp hnd2).1
          apply hnotin
          have hmem : x.id ∈ l2.map (fun cl => cl.id) :=
            List.mem_map_of_mem (fun cl => cl.id) hx
          rw [hcid, ← hxid]
          exact hmem
      · show (st.comments.filter (fun cm => !(cm.clip == c))).filter
          (fun cm => cm.clip == c) = []
        rw [List.filter_filter, List.filter_eq_nil_iff]
        intro a ha
        cases hac : a.clip == c <;> simp [hac]
      · show (st.likes.filter
            (fun l => !(l.clip == some c && l.type == LikeType.clip))).filter
          (fun l => l.clip == some c && l.type == LikeType.clip) = []
        rw [List.filter_filter, List.filter_eq_nil_iff]
        intro a ha
        cases hac : a.clip == some c <;> cases hat : a.type == LikeType.clip <;>
          simp [hac, hat]

/-- Concrete instantiation of claim C5: owner 7 deletes clip 1 from the
sample store; the resulting stores hold no trace of it. -/
theorem deleteClip_cascade_witness :
    (⟨[], [], []⟩ : AppState).clips.find? (fun cl => cl.id == 1) = none ∧
    (⟨[], [], []⟩ : AppState).comments.filter (fun cm => cm.clip == 1) = [] ∧
    (⟨[], [], []⟩ : AppState).likes.filter
      (fun l => l.clip == some 1 && l.type == LikeType.clip) = [] :=
  deleteClip_cascade sampleState 7 1 ⟨[], [], []⟩ (by decide) rfl

/-- Claim C7: a delete request by an authenticated non-owner on an existing
clip answers Forbidden, and the stores are exactly as before: the handler
returns before any of the three delete operations runs. -/
theorem deleteClip_forbidden_unchanged (st : AppState) (u c : Nat) (clip : ClipDoc)
    (hfind : st.clips.find? (fun cl => cl.id == c) = some clip)
    (hown : clip.user ≠ u) :
    deleteClip st u c = Except.error RouteErr.forbidden ∧
    deleteClipState st u c = st := by
  have hdel : deleteClip st u c = Except.error RouteErr.forbidden := by
    unfold deleteClip
    rw [hfind]
    simp only
    rw [if_pos hown]
  refine ⟨hdel, ?_⟩
  unfold deleteClipState
  rw [hdel]

/-- Concrete instantiation of claim C7: user 8 cannot delete clip 1, which
user 7 owns, and the sample store is untouched. -/
theorem deleteClip_forbidden_unchanged_witness :
    deleteClip sampleState 8 1 = Except.error RouteErr.forbidden ∧
    deleteClipState sampleState 8 1 = sampleState :=
  deleteClip_forbidden_unchanged sampleState 8 1 sampleClip (by decide) (by decide)

/-- On clip-kind triples the uniqueness filter coincides with the toggle's
findOne filter. -/
theorem matchesTriple_clip (u c : Nat) (x : LikeDoc) :
    matchesTriple u c LikeType.clip x = likeMatches u c x := by
  cases hx : x.user == u <;> cases hy : x.clip == some c <;>
    cases hz : x.type == LikeType.clip <;>
      simp [matchesTriple, likeMatches, hx, hy, hz]

/-- The like toggle preserves at-most-one-Like-per-triple: it only inserts
after findOne has reported no match. -/
theorem toggle_preserves_unique {st : AppState} {u c : Nat} {b : Bool}
    {n : Nat} {st' : AppState} (hinv : atMostOnePerTriple st.likes)
    (h : toggleLike st u c = some (b, n, st')) :
    atMostOnePerTriple st'.likes := by
  unfold toggleLike at h
  cases hcf : st.clips.find? (fun cl => cl.id == c) with
  | none => rw [hcf] at h; cases h
  | some clip =>
    rw [hcf] at h
    cases hlf : st.likes.find? (likeMatches u c) with
    | some l0 =>
      rw [hlf] at h
      simp only [Option.some.injEq, Prod.mk.injEq] at h
      obtain ⟨-, -, hst⟩ := h
      rw [← hst]
      intro u' t' k'
      exact le_trans
        (List.Sublist.countP_le _ (List.eraseP_sublist st.likes))
        (hinv u' t' k')
    | none =>
      rw [hlf] at h
      simp only [Option.some.injEq, Prod.mk.injEq] at h
      obtain ⟨-, -, hst⟩ := h
      rw [← hst]
      intro u' t' k'
      show List.countP (matchesTriple u' t' k') (st.likes ++ [toggleRecord u c]) ≤ 1
      rw [List.countP_append]
      by_cases hm : matchesTriple u' t' k' (toggleRecord u c) = true
      · obtain ⟨hu, ht, hk⟩ : u' = u ∧ t' = c ∧ k' = LikeType.clip := by
          cases k' with
          | clip =>
            simp only [matchesTriple, toggleRecord, Bool.and_eq_true, beq_iff_eq] at hm
            exact ⟨hm.1.1.symm, by simpa using hm.2.symm, rfl⟩
          | comment =>
            simp [matchesTriple, toggleRecord] at hm
        rw [hu, ht, hk]
        have hzero : st.likes.countP (matchesTriple u c LikeType.clip) = 0 := by
          rw [List.countP_eq_zero]
          intro x hx hpx
          rw [matchesTriple_clip] at hpx
          exact (List.find?_eq_none.mp hlf) x hx hpx
        rw [hzero]
        have hone : List.countP (matchesTriple u c LikeType.clip) [toggleRecord u c] ≤ 1 := by
          cases hpp : matchesTriple u c LikeType.clip (toggleRecord u c) <;>
            simp [List.countP_cons, hpp]
        simpa using hone
      · have : List.countP (matchesTriple u' t' k') [toggleRecord u c] = 0 := by
          simp [hm]
        rw [this]
        simpa using hinv u' t' k'

/-- The cascade delete preserves at-most-one-Like-per-triple: it only
removes records. -/
theorem delete_preserves_unique {st : AppState} {u c : Nat} {st' : AppState}
    (hinv : atMostOnePerTriple st.likes)
    (h : deleteClip st u c = Except.ok st') :
    atMostOnePerTriple st'.likes := by
  unfold deleteClip at h
  cases hcf : st.clips.find? (fun cl => cl.id == c) with
  | none => rw [hcf] at h; cases h
  | some clip =>
    rw [hcf] at h
    simp only at h
    by_cases hown : clip.user ≠ u
    · rw [if_pos hown] at h; cases h
    · rw [if_neg hown] at h
      simp only [Except.ok.injEq] at h
      rw [← h]
      intro u' t' k'
      exact le_trans
        (List.Sublist.countP_le _ (List.filter_sublist st.likes))
        (hinv u' t' k')

/-- Claim C6: in every state reachable through the clip routes, at most one
Like record exists per (actor, target, target-kind) triple; in particular
the toggle never stores a second Like for a (viewer, clip, clip-kind) that
already has one, since its insert branch runs only after findOne reported
no match and the branch adds exactly one matching record. -/
theorem reachable_like_unique (st : AppState) (h : Reachable st) :
    atMostOnePerTriple st.likes := by
  induction h with
  | init =>
    intro u t k
    simp [List.countP_nil]
  | create st cl hr ih =>
    exact ih
  | comment st u c content st' hr hadd ih =>
    unfold addComment at hadd
    cases hcf : st.clips.find? (fun cl => cl.id == c) with
    | none => rw [hcf] at hadd; cases hadd
    | some clip =>
      rw [hcf] at hadd
      simp only [Option.some.injEq] at hadd
      rw [← hadd]
      exact ih
  | toggle st u c b n st' hr htog ih =>
    exact toggle_preserves_unique ih htog
  | delete st u c st' hr hdel ih =>
    exact delete_preserves_unique ih hdel

/-- Concrete instantiation of claim C6: the sample store, reached by a
create, a comment and a like toggle from empty stores, satisfies the
uniqueness invariant. -/
theorem reachable_like_unique_witness : atMostOnePerTriple sampleState.likes := by
  have h0 : Reachable (⟨[], [], []⟩ : AppState) := Reachable.init
  have h1 : Reachable (⟨[sampleClip], [], []⟩ : AppState) :=
    Reachable.create ⟨[], [], []⟩ sampleClip h0
  have h2 : Reachable (⟨[sampleClip], [sampleComment 9 1], []⟩ : AppState) :=
    Reachable.comment ⟨[sampleClip], [], []⟩ 9 1 "hi"
      ⟨[sampleClip], [sampleComment 9 1], []⟩ h1 rfl
  have h3 : Reachable sampleState :=
    Reachable.toggle ⟨[sampleClip], [sampleComment 9 1], []⟩ 7 1 true 1
      sampleState h2 (by decide)
  exact reachable_like_unique sampleState h3
